import Mathlib

/-
Verification of the clusterctl Provider Repository Resolution & Template
Rendering subsystem (package `repository` of the cluster-api fork).

The Go source is shallowly embedded: raw YAML artifacts are `List Char`,
interfaces consumed by the core (filesystem, repository backend, YAML to
object converter, variables source) are explicit function-valued records,
and fallible Go functions returning `(T, error)` become `Except`.

Functions whose bodies are not part of the source excerpt (only their call
sites are) are modelled from the natural-language specification; each such
definition carries a doc comment starting with `Modelled from the spec:`.
-/

namespace Clusterctl

/-! ## Variable substitution engine (spec section 4.1)

The engine (`inspectVariables` / `replaceVariables`) is called from
`defaultYamlProcessor.Process` in the source but its body is not part of
the excerpt, so it is modelled from the spec. -/

/-- Modelled from the spec: first character of a placeholder NAME, which
matches the class of an ASCII letter or underscore. -/
def isIdentStart (c : Char) : Bool := c.isAlpha || c = '_'

/-- Modelled from the spec: subsequent character of a placeholder NAME, an
ASCII letter, digit or underscore. -/
def isIdentChar (c : Char) : Bool := c.isAlphanum || c = '_'

/-- Modelled from the spec: a token of the raw artifact text, either a run of
literal characters or a placeholder `$\x7bNAME\x7d` (braced) / `$NAME` (bare). -/
inductive Seg where
  | lit (s : List Char)
  | ph (braced : Bool) (name : List Char)
deriving DecidableEq

/-- Render a single token back to the exact source text it was scanned from. -/
def renderSeg : Seg → List Char
  | .lit s => s
  | .ph true nm => '$' :: '\x7b' :: (nm ++ ['\x7d'])
  | .ph false nm => '$' :: nm

/-- Render a token list back to text. -/
def renderSegs (segs : List Seg) : List Char := segs.flatMap renderSeg

/-- Modelled from the spec: parse `NAME\x7d` at the position just after `$\x7b`;
NAME must match ident-start followed by ident characters. -/
def parseBraced (l : List Char) : Option (List Char × List Char) :=
  match l.takeWhile isIdentChar, l.dropWhile isIdentChar with
  | n0 :: nrest, c :: rest =>
      if isIdentStart n0 && c = '\x7d' then some (n0 :: nrest, rest) else none
  | _, _ => none

/-- Modelled from the spec: consume one token at the head of the text.
`prev` records whether the previous character is an identifier character
(the bare `$NAME` form is recognized only when it is not, avoiding
partial-word matches). Returns the token, the next `prev` flag and the
remaining text. -/
def step (prev : Bool) (c : Char) (rest : List Char) : Seg × Bool × List Char :=
  if c = '$' then
    match rest with
    | '\x7b' :: r2 =>
      match parseBraced r2 with
      | some (nm, r3) => (Seg.ph true nm, false, r3)
      | none => (Seg.lit [c], false, rest)
    | d :: _ =>
      if !prev && isIdentStart d then
        (Seg.ph false (rest.takeWhile isIdentChar), true, rest.dropWhile isIdentChar)
      else (Seg.lit [c], false, rest)
    | [] => (Seg.lit [c], false, [])
  else (Seg.lit [c], isIdentChar c, rest)

/-- Modelled from the spec: fuelled single scan of the raw text producing the
token list; each step consumes at least one character so fuel equal to the
text length always suffices. -/
def scanAux : Nat → Bool → List Char → List Seg
  | 0, _, _ => []
  | _ + 1, _, [] => []
  | fuel + 1, prev, c :: rest =>
    match step prev c rest with
    | (seg, prev2, rest2) => seg :: scanAux fuel prev2 rest2

/-- Modelled from the spec: Discover performs a single scan of the raw
artifact producing its token list. -/
def scan (l : List Char) : List Seg := scanAux l.length false l

/-- Names of the placeholder tokens, in occurrence order with duplicates. -/
def phNames (segs : List Seg) : List (List Char) :=
  segs.filterMap fun s => match s with | .ph _ nm => some nm | .lit _ => none

/-- Keep-first duplicate suppression, preserving first-occurrence order. -/
def dedupAux (seen : List (List Char)) : List (List Char) → List (List Char)
  | [] => []
  | x :: xs => if seen.contains x then dedupAux seen xs else x :: dedupAux (x :: seen) xs

/-- Modelled from the spec: `inspectVariables` (Discover) returns the ordered
set of distinct placeholder names of the raw artifact, in first-occurrence
order. The function body is absent from the source excerpt; only its call
sites in `defaultYamlProcessor` are present. -/
def inspectVariables (raw : List Char) : List (List Char) :=
  dedupAux [] (phNames (scan raw))

/-- Error kinds of the substitution engine (spec section 7). -/
inductive SubstError where
  | missingVariable (name : List Char)
deriving DecidableEq

/-- Modelled from the spec: replace every placeholder occurrence of `name`
with the literal value `v`, leaving all other tokens untouched. -/
def replaceSeg (name : List Char) (v : List Char) : Seg → Seg
  | .ph b nm => if nm = name then .lit v else .ph b nm
  | .lit s => .lit s

/-- Modelled from the spec: the per-variable substitution loop. For each
listed variable name, look it up in the source: if found, replace every
occurrence of its placeholder; if absent with `skipMissing` set, leave its
placeholders untouched; if absent otherwise, fail with `MissingVariable`
(all-or-nothing, no output is produced). -/
def replaceVarSegs (vars : List (List Char)) (src : List Char → Option (List Char))
    (skipMissing : Bool) (segs : List Seg) : Except SubstError (List Seg) :=
  match vars with
  | [] => .ok segs
  | n :: ns =>
    match src n with
    | some v => replaceVarSegs ns src skipMissing (segs.map (replaceSeg n v))
    | none =>
      if skipMissing then replaceVarSegs ns src skipMissing segs
      else .error (.missingVariable n)

/-- Modelled from the spec: `replaceVariables` (Substitute) scans the raw
artifact once, runs the per-variable substitution loop over the token list
and renders the result; on failure no output is produced. The function body
is absent from the source excerpt; only its call sites are present. -/
def replaceVariables (raw : List Char) (vars : List (List Char))
    (src : List Char → Option (List Char)) (skipMissing : Bool) :
    Except SubstError (List Char) :=
  (replaceVarSegs vars src skipMissing (scan raw)).map renderSegs

/-- Number of placeholder tokens carrying the name `n`. -/
def countPh (n : List Char) (segs : List Seg) : Nat :=
  segs.countP fun s => match s with | .ph _ nm => nm = n | .lit _ => false

/-! ## YAML processor (`template_processor_default.go`) -/

/-- Embeds `defaultYamlProcessor`: the stateless processor holding only the
`skipVariables` flag. -/
structure defaultYamlProcessor where
  skipVariables : Bool
deriving DecidableEq

/-- Embeds `newDefaultYamlProcessor`. -/
def newDefaultYamlProcessor (skipVariables : Bool) : defaultYamlProcessor :=
  { skipVariables := skipVariables }

/-- Embeds `defaultYamlProcessor.ArtifactName`: builds the template file name
following the naming convention `cluster-template[-flavor].yaml`. The
`version` argument is unused, as in the source. -/
def ArtifactName (_tp : defaultYamlProcessor) (_version flavor : String) : String :=
  let name := "cluster-template"
  let name := if flavor ≠ "" then name ++ "-" ++ flavor else name
  name ++ ".yaml"

/-- Embeds `defaultYamlProcessor.GetVariables`: discovers the variables of the
raw artifact; it never fails. -/
def GetVariables (_tp : defaultYamlProcessor) (rawArtifact : List Char) :
    Except SubstError (List (List Char)) :=
  .ok (inspectVariables rawArtifact)

/-- Embeds `defaultYamlProcessor.Process`: discovers the variables of the raw
artifact and substitutes them from the variables getter, honouring the
processor's `skipVariables` flag. -/
def Process (tp : defaultYamlProcessor) (rawArtifact : List Char)
    (variablesGetter : List Char → Option (List Char)) : Except SubstError (List Char) :=
  replaceVariables rawArtifact (inspectVariables rawArtifact) variablesGetter tp.skipVariables

/-! ## Providers, repositories, filesystem -/

/-- Embeds `config.Provider` (consumed through its interface: name, URL, type
and manifest label; the label derivation lives outside the excerpt, so it is
carried as data). -/
structure Provider where
  name : String
  url : String
  ptype : String
  manifestLabel : String
deriving DecidableEq

/-- Result of the `os.Stat` call in `getLocalOverride`: the file exists, does
not exist, or another filesystem error occurred. -/
inductive StatError where
  | notExist
  | other (msg : String)
deriving DecidableEq

/-- Filesystem oracle consumed by `getLocalOverride`. `configHome` models the
directory `filepath.Join(homedir.HomeDir(), config.ConfigFolder)` computed in
the source from code outside the excerpt. -/
structure FileSystem where
  configHome : String
  stat : String → Except StatError Unit
  readFile : String → Except String (List Char)

/-- Embeds the constant `overrideFolder`. -/
def overrideFolder : String := "overrides"

/-- Embeds `filepath.Join` for the two-argument case, modelled as separator
concatenation. -/
def joinPath (a b : String) : String := a ++ "/" ++ b

/-- Path at which `getLocalOverride` looks for a local override:
`configHome/overrides/providerLabel/version/path`. -/
def overridePath (configHome label version path : String) : String :=
  joinPath (joinPath (joinPath (joinPath configHome overrideFolder) label) version) path

/-- Embeds `getLocalOverride`: stat the canonical override path; on success
read and return the file (wrapping a read failure); if the file does not
exist report absence (`none`) without error; propagate any other stat error. -/
def getLocalOverride (fs : FileSystem) (provider : Provider) (version path : String) :
    Except String (Option (List Char)) :=
  let p := overridePath fs.configHome provider.manifestLabel version path
  match fs.stat p with
  | .ok _ =>
    match fs.readFile p with
    | .ok content => .ok (some content)
    | .error e =>
        .error ("failed to read local override for " ++ provider.manifestLabel ++ "/" ++
          version ++ "/" ++ path ++ ": " ++ e)
  | .error .notExist => .ok none
  | .error (.other e) => .error e

/-- Embeds the `Repository` interface: version defaulting, path derivation and
file retrieval of one backend. -/
structure Repository where
  defaultVersion : String
  rootPath : String
  componentsPath : String
  getFile : String → String → Except String (List Char)
  getVersions : Except String (List String)

/-! ## Kubernetes-style objects and namespace fix-up -/

/-- Embeds `unstructured.Unstructured` as consumed by the core: a kind, a
namespace field and the remaining fields as opaque key/value data. -/
structure Unstructured where
  apiVersion : String
  kind : String
  ns : String
  fields : List (String × String)
deriving DecidableEq

/-- Modelled from the spec: `fixTargetNamespace` (body absent from the source
excerpt; only its call sites are present) walks the object list and, for
every object whose kind is namespace-scoped according to the scoping oracle,
overwrites its namespace field with `targetNamespace`, leaving cluster-scoped
objects unmodified. -/
def fixTargetNamespace (isNamespaced : String → Bool) (objs : List Unstructured)
    (targetNamespace : String) : List Unstructured :=
  objs.map fun o => if isNamespaced o.kind then { o with ns := targetNamespace } else o

/-! ## Template client (`template_client.go`, stateless-processor version) -/

/-- Embeds the `template` struct: discovered variables (Go field
`variables`, a reserved word here), target namespace, converted objects and
the raw YAML. Fields not assigned at a construction site keep the Go zero
value (empty). -/
structure template where
  vars : List (List Char)
  targetNamespace : String
  objs : List Unstructured
  rawYaml : List Char
deriving DecidableEq

/-- Embeds `template.TargetNamespace`. -/
def template.TargetNamespace (t : template) : String := t.targetNamespace

/-- Embeds `template.Variables`. -/
def template.Variables (t : template) : List (List Char) := t.vars

/-- Embeds `template.Objs`. -/
def template.Objs (t : template) : List Unstructured := t.objs

/-- Ambient collaborators of a render call: the filesystem (for overrides),
the YAML to object converter (`util.ToUnstructured`, external) and the oracle
deciding which kinds are namespace-scoped. -/
structure World where
  fs : FileSystem
  toUnstructured : List Char → Except String (List Unstructured)
  isNamespaced : String → Bool

/-- Embeds the `templateClient` struct. -/
structure templateClient where
  listVariablesOnly : Bool
  provider : Provider
  repository : Repository
  configVariablesClient : List Char → Option (List Char)
  processor : defaultYamlProcessor

/-- Embeds `TemplateClientInput`. -/
structure TemplateClientInput where
  listVariablesOnly : Bool
  provider : Provider
  repository : Repository
  configVariablesClient : List Char → Option (List Char)

/-- Embeds `newTemplateClient`: wires the processor from the input's
`listVariablesOnly` flag. -/
def newTemplateClient (input : TemplateClientInput) : templateClient :=
  { listVariablesOnly := input.listVariablesOnly
    provider := input.provider
    repository := input.repository
    configVariablesClient := input.configVariablesClient
    processor := newDefaultYamlProcessor input.listVariablesOnly }

/-- Embeds the fetch block of `templateClient.Get` (and of
`componentsClient.Get`): consult the local override first and fall back to
the repository backend only when the override is absent, wrapping backend
failures with provider context. -/
def fetchRawArtifact (fs : FileSystem) (provider : Provider) (repo : Repository)
    (version name : String) : Except String (List Char) :=
  match getLocalOverride fs provider version name with
  | .error e => .error e
  | .ok (some content) => .ok content
  | .ok none =>
    match repo.getFile version name with
    | .ok raw => .ok raw
    | .error e =>
        .error ("failed to read " ++ name ++ " from repository of provider " ++
          provider.manifestLabel ++ ": " ++ e)

/-- Render a substitution failure as the string error surfaced by `Get`. -/
def SubstError.toMsg : SubstError → String
  | .missingVariable n => "value for variable " ++ String.mk n ++ " is not set"

/-- Embeds `templateClient.Get` (the stateless-processor version adopted by
the spec): reject an empty target namespace, fetch the artifact (override
first), discover variables, short-circuit in list-variables-only mode, else
substitute, convert to objects, fix the target namespace and return the
template. -/
def templateGet (c : templateClient) (w : World) (version flavor targetNamespace : String) :
    Except String template :=
  if targetNamespace = "" then
    .error "invalid arguments: please provide a targetNamespace"
  else
    let name := ArtifactName c.processor version flavor
    match fetchRawArtifact w.fs c.provider c.repository version name with
    | .error e => .error e
    | .ok rawArtifact =>
      match GetVariables c.processor rawArtifact with
      | .error e => .error e.toMsg
      | .ok variableList =>
        if c.listVariablesOnly then
          .ok { vars := variableList, targetNamespace := "", objs := [], rawYaml := [] }
        else
          match Process c.processor rawArtifact c.configVariablesClient with
          | .error e => .error e.toMsg
          | .ok processedYaml =>
            match w.toUnstructured processedYaml with
            | .error e => .error ("failed to parse yaml: " ++ e)
            | .ok objs0 =>
              let objs := fixTargetNamespace w.isNamespaced objs0 targetNamespace
              .ok { vars := [], targetNamespace := targetNamespace, objs := objs,
                    rawYaml := [] }

/-! ## Components client (`components_client.go`) -/

/-- Result of `NewComponents` (constructor outside the excerpt): the rendered
components artifact, carrying the inputs handed to the constructor. -/
structure Components where
  provider : Provider
  version : String
  file : List Char
  targetNamespace : String
  watchingNamespace : String

/-- Embeds the `componentsClient` struct; `newComponents` stands for the
external `NewComponents` constructor the source delegates to. -/
structure componentsClient where
  provider : Provider
  repository : Repository
  newComponents : Provider → String → List Char → String → String → Except String Components

/-- Embeds `componentsClient.Get`: default the version from the backend when
empty, fetch the components file (override first, backend otherwise) and
delegate to `NewComponents`. -/
def componentsGet (f : componentsClient) (fs : FileSystem)
    (version targetNamespace watchingNamespace : String) : Except String Components :=
  let version := if version = "" then f.repository.defaultVersion else version
  let path := f.repository.componentsPath
  match getLocalOverride fs f.provider version path with
  | .error e => .error e
  | .ok (some file) => f.newComponents f.provider version file targetNamespace watchingNamespace
  | .ok none =>
    match f.repository.getFile version path with
    | .error e =>
        .error ("failed to read " ++ path ++ " from repository of provider " ++
          f.provider.manifestLabel ++ ": " ++ e)
    | .ok file => f.newComponents f.provider version file targetNamespace watchingNamespace

/-! ## Repository client construction (`client.go` of the repository package) -/

/-- Parsed provider URL as handed back by `net/url.Parse` (external), reduced
to the fields the factory inspects. -/
structure ParsedURL where
  scheme : String
  host : String
deriving DecidableEq

/-- Collaborators of `repositoryFactory`: the URL parser and the two backend
constructors (`newGitHubRepository`, `newLocalRepository`), whose bodies lie
outside the excerpt. -/
structure FactoryEnv where
  parseURL : String → Option ParsedURL
  newGitHubRepository : Provider → Except String Repository
  newLocalRepository : Provider → Except String Repository

/-- Modelled from the spec: the constant `httpsScheme` (definition outside the
excerpt); the known remote-release host is reached over HTTPS. -/
def httpsScheme : String := "https"

/-- Modelled from the spec: the constant `githubDomain` (definition outside
the excerpt); the known remote-release host is `github.com`. -/
def githubDomain : String := "github.com"

/-- Embeds `repositoryFactory`: parse the provider URL, then select the GitHub
backend for HTTPS URLs on the known host, the local filesystem backend for
the `file` or empty scheme, and fail naming the scheme otherwise. -/
def repositoryFactory (env : FactoryEnv) (providerConfig : Provider) :
    Except String Repository :=
  match env.parseURL providerConfig.url with
  | none => .error ("failed to parse repository url " ++ providerConfig.url)
  | some rURL =>
    if rURL.scheme = httpsScheme ∧ rURL.host = githubDomain then
      match env.newGitHubRepository providerConfig with
      | .ok repo => .ok repo
      | .error e => .error ("error creating the GitHub repository client: " ++ e)
    else if rURL.scheme = "file" ∨ rURL.scheme = "" then
      match env.newLocalRepository providerConfig with
      | .ok repo => .ok repo
      | .error e => .error ("error creating the local filesystem repository client: " ++ e)
    else
      .error ("invalid provider url. there are no provider implementation for " ++
        rURL.scheme ++ " schema")

/-- Embeds the `repositoryClient` struct; `repository` is optional because the
Go field is a nil-able interface filled in either by an option or by the
factory. -/
structure repositoryClient where
  provider : Provider
  configVariablesClient : List Char → Option (List Char)
  repository : Option Repository

/-- Embeds `InjectRepository`: the option that presets the repository
implementation. -/
def InjectRepository (r : Repository) : repositoryClient → repositoryClient :=
  fun c => { c with repository := some r }

/-- Embeds `newRepositoryClient`: build the client, apply the options in
order, and only when no repository was injected consult `repositoryFactory`,
wrapping its failure with provider context. -/
def newRepositoryClient (env : FactoryEnv) (provider : Provider)
    (configVariablesClient : List Char → Option (List Char))
    (options : List (repositoryClient → repositoryClient)) : Except String repositoryClient :=
  let client : repositoryClient :=
    { provider := provider, configVariablesClient := configVariablesClient,
      repository := none }
  let client := options.foldl (fun c o => o c) client
  match client.repository with
  | some _ => .ok client
  | none =>
    match repositoryFactory env provider with
    | .error e =>
        .error ("failed to get repository client for the " ++ provider.ptype ++
          " with name " ++ provider.name ++ ": " ++ e)
    | .ok r => .ok { client with repository := some r }

/-! ## Concrete sample inputs

Closed instances of the collaborator records, used to evaluate the embedded
operations on concrete data. -/

/-- Variable source with every variable absent. -/
def noVars : List Char → Option (List Char) := fun _ => none

/-- Sample raw template artifact: `cluster: $\x7bCLUSTER_NAME\x7d $NAMESPACE`. -/
def sampleRaw : List Char :=
  "cluster: $".toList ++ '\x7b' :: "CLUSTER_NAME".toList ++ '\x7d' :: " $NAMESPACE".toList

/-- Sample variable source resolving both sample variables. -/
def sampleVars : List Char → Option (List Char) := fun n =>
  if n = "CLUSTER_NAME".toList then some "foo".toList
  else if n = "NAMESPACE".toList then some "bar".toList
  else none

/-- Fully substituted form of `sampleRaw` under `sampleVars`. -/
def sampleOut : List Char := "cluster: foo bar".toList

/-- Sample provider identity. -/
def sampleProvider : Provider :=
  { name := "aws"
    url := "https://github.com/o/r/releases/v1.0.0/infrastructure-components.yaml"
    ptype := "InfrastructureProvider"
    manifestLabel := "infrastructure-aws" }

/-- Sample repository backend serving `sampleRaw` for every file. -/
def sampleRepo : Repository :=
  { defaultVersion := "v1.0.0"
    rootPath := ""
    componentsPath := "infrastructure-components.yaml"
    getFile := fun _ _ => .ok sampleRaw
    getVersions := .ok ["v1.0.0"] }

/-- Filesystem with no override files at all. -/
def fsEmpty : FileSystem :=
  { configHome := "/home/user/.cluster-api"
    stat := fun _ => .error .notExist
    readFile := fun _ => .error "no such file" }

/-- Canonical override path of the sample template artifact. -/
def sampleOverridePath : String :=
  overridePath "/home/user/.cluster-api" "infrastructure-aws" "v1.0.0" "cluster-template.yaml"

/-- Filesystem holding an override for the sample template artifact. -/
def fsOverride : FileSystem :=
  { configHome := "/home/user/.cluster-api"
    stat := fun p => if p = sampleOverridePath then .ok () else .error .notExist
    readFile := fun p => if p = sampleOverridePath then .ok sampleRaw else .error "no such file" }

/-- Filesystem whose stat calls fail with a non-not-exist error. -/
def fsPerm : FileSystem :=
  { configHome := "/home/user/.cluster-api"
    stat := fun _ => .error (.other "permission denied")
    readFile := fun _ => .error "permission denied" }

/-- Sample converter output: one namespaced object and one cluster-scoped
object. -/
def sampleToUnstructured : List Char → Except String (List Unstructured) := fun _ =>
  .ok [ { apiVersion := "cluster.x-k8s.io/v1alpha3", kind := "Cluster", ns := "default",
          fields := [("name", "c1")] },
        { apiVersion := "apiextensions.k8s.io/v1", kind := "CustomResourceDefinition", ns := "",
          fields := [("name", "crd1")] } ]

/-- Sample scoping oracle: every kind except CustomResourceDefinition is
namespace-scoped. -/
def sampleIsNamespaced : String → Bool := fun k => k ≠ "CustomResourceDefinition"

/-- Sample ambient world without overrides. -/
def sampleWorld : World :=
  { fs := fsEmpty, toUnstructured := sampleToUnstructured, isNamespaced := sampleIsNamespaced }

/-- Sample ambient world with the template override present. -/
def sampleWorldOverride : World :=
  { fs := fsOverride, toUnstructured := sampleToUnstructured,
    isNamespaced := sampleIsNamespaced }

/-- Sample template client input. -/
def sampleInput : TemplateClientInput :=
  { listVariablesOnly := false
    provider := sampleProvider
    repository := sampleRepo
    configVariablesClient := sampleVars }

/-- Sample components client; the external constructor records its inputs. -/
def sampleComponentsClient : componentsClient :=
  { provider := sampleProvider
    repository := sampleRepo
    newComponents := fun p v file tn wn => .ok
      { provider := p, version := v, file := file, targetNamespace := tn,
        watchingNamespace := wn } }

/-- Sample URL parser covering the provider URLs used in the examples. -/
def sampleParseURL : String → Option ParsedURL := fun u =>
  if u = "https://github.com/o/r/releases/v1.0.0/infrastructure-components.yaml" then
    some { scheme := "https", host := "github.com" }
  else if u = "file:///tmp/repo/v1.0.0/components.yaml" then
    some { scheme := "file", host := "" }
  else if u = "https://gitlab.com/o/r" then
    some { scheme := "https", host := "gitlab.com" }
  else if u = "http://github.com/o/r" then
    some { scheme := "http", host := "github.com" }
  else none

/-- Sample factory collaborators. -/
def sampleFactoryEnv : FactoryEnv :=
  { parseURL := sampleParseURL
    newGitHubRepository := fun _ => .ok sampleRepo
    newLocalRepository := fun _ => .ok
      { sampleRepo with componentsPath := "components.yaml" } }

/-- Expected result of the sample full render: the Cluster object forced
into the target namespace, the cluster-scoped CustomResourceDefinition
untouched. -/
def sampleRenderedTemplate : template :=
  { vars := []
    targetNamespace := "ns1"
    objs := [ { apiVersion := "cluster.x-k8s.io/v1alpha3", kind := "Cluster", ns := "ns1",
                fields := [("name", "c1")] },
              { apiVersion := "apiextensions.k8s.io/v1", kind := "CustomResourceDefinition",
                ns := "", fields := [("name", "crd1")] } ]
    rawYaml := [] }

/-- Sample provider served from a local filesystem URL. -/
def localProvider : Provider :=
  { name := "local"
    url := "file:///tmp/repo/v1.0.0/components.yaml"
    ptype := "BootstrapProvider"
    manifestLabel := "bootstrap-local" }

/-- Sample provider with a scheme no backend implements. -/
def badSchemeProvider : Provider :=
  { name := "bad"
    url := "http://github.com/o/r"
    ptype := "BootstrapProvider"
    manifestLabel := "bootstrap-bad" }

/-- Factory collaborators whose URL parser rejects every URL. -/
def failingFactoryEnv : FactoryEnv :=
  { parseURL := fun _ => none
    newGitHubRepository := fun _ => .error "unreachable"
    newLocalRepository := fun _ => .error "unreachable" }

/-! ## Scanner lemmas -/

theorem isIdentChar_of_isIdentStart {c : Char} (h : isIdentStart c = true) :
    isIdentChar c = true := by
  unfold isIdentStart at h
  unfold isIdentChar Char.isAlphanum
  rcases Bool.or_eq_true_iff.mp h with h1 | h1 <;> simp [h1]

theorem length_dropWhile_le (p : Char → Bool) (l : List Char) :
    (l.dropWhile p).length ≤ l.length := by
  induction l with
  | nil => simp [List.dropWhile]
  | cons a l ih =>
    simp only [List.dropWhile]
    by_cases h : p a
    · simp only [h]
      exact Nat.le_trans ih (Nat.le_succ _)
    · simp [h]

theorem parseBraced_sound {l nm r : List Char} (h : parseBraced l = some (nm, r)) :
    l = nm ++ '\x7d' :: r ∧ nm ≠ [] := by
  unfold parseBraced at h
  split at h
  case _ n0 nrest c rest heq1 heq2 =>
    split at h
    case isTrue hcond =>
      injection h with h
      injection h with h1 h2
      subst h1; subst h2
      have hc : c = '\x7d' := by
        have := (Bool.and_eq_true_iff.mp hcond).2
        exact decide_eq_true_eq.mp this
      subst hc
      constructor
      · conv_lhs => rw [← List.takeWhile_append_dropWhile isIdentChar l]
        rw [heq1, heq2]
      · simp
    case isFalse => exact absurd h (by simp)
  case _ => exact absurd h (by simp)

theorem step_sound {prev : Bool} {c : Char} {rest : List Char}
    {seg : Seg} {prev2 : Bool} {rest2 : List Char}
    (h : step prev c rest = (seg, prev2, rest2)) :
    renderSeg seg ++ rest2 = c :: rest ∧ rest2.length ≤ rest.length := by
  unfold step at h
  split at h
  case isTrue hc =>
    subst hc
    split at h
    case _ r2 =>
      split at h
      case _ nm r3 hp =>
        injection h with h1 h
        injection h with h2 h3
        subst h1; subst h2; subst h3
        obtain ⟨hr2, hnm⟩ := parseBraced_sound hp
        subst hr2
        constructor
        · simp [renderSeg]
        · simp only [List.length_cons, List.length_append]
          omega
      case _ hp =>
        injection h with h1 h
        injection h with h2 h3
        subst h1; subst h2; subst h3
        exact ⟨by simp [renderSeg], Nat.le_refl _⟩
    case _ d r2 hnb =>
      split at h
      case isTrue hd =>
        injection h with h1 h
        injection h with h2 h3
        subst h1; subst h2; subst h3
        constructor
        · show '$' :: ((d :: r2).takeWhile isIdentChar ++ (d :: r2).dropWhile isIdentChar) =
            '$' :: (d :: r2)
          rw [List.takeWhile_append_dropWhile]
        · exact length_dropWhile_le _ _
      case isFalse hd =>
        injection h with h1 h
        injection h with h2 h3
        subst h1; subst h2; subst h3
        exact ⟨rfl, Nat.le_refl _⟩
    case _ =>
      injection h with h1 h
      injection h with h2 h3
      subst h1; subst h2; subst h3
      exact ⟨rfl, Nat.le_refl _⟩
  case isFalse hc =>
    injection h with h1 h
    injection h with h2 h3
    subst h1; subst h2; subst h3
    exact ⟨rfl, Nat.le_refl _⟩

theorem renderSegs_nil : renderSegs [] = [] := rfl

theorem renderSegs_cons (s : Seg) (segs : List Seg) :
    renderSegs (s :: segs) = renderSeg s ++ renderSegs segs := by
  simp [renderSegs]

theorem renderSegs_scanAux : ∀ (fuel : Nat) (prev : Bool) (l : List Char),
    l.length ≤ fuel → renderSegs (scanAux fuel prev l) = l := by
  intro fuel
  induction fuel with
  | zero =>
    intro prev l h
    have : l = [] := List.length_eq_zero.mp (Nat.le_zero.mp h)
    subst this
    rfl
  | succ fuel ih =>
    intro prev l h
    cases l with
    | nil => rfl
    | cons c rest =>
      rcases hs : step prev c rest with ⟨seg, prev2, rest2⟩
      have hsound := step_sound hs
      have hlen : rest2.length ≤ fuel := by
        have : rest.length ≤ fuel := by
          simpa [Nat.succ_le_succ_iff] using h
        exact Nat.le_trans hsound.2 this
      calc renderSegs (scanAux (fuel + 1) prev (c :: rest))
          = renderSegs (seg :: scanAux fuel prev2 rest2) := by
            simp only [scanAux, hs]
        _ = renderSeg seg ++ renderSegs (scanAux fuel prev2 rest2) := renderSegs_cons _ _
        _ = renderSeg seg ++ rest2 := by rw [ih prev2 rest2 hlen]
        _ = c :: rest := hsound.1

theorem render_scan (l : List Char) : renderSegs (scan l) = l :=
  renderSegs_scanAux l.length false l (Nat.le_refl _)

/-! ## Substitution-loop lemmas -/

theorem inspectVariables_nil_phNames {raw : List Char}
    (h : inspectVariables raw = []) : phNames (scan raw) = [] := by
  unfold inspectVariables at h
  cases hp : phNames (scan raw) with
  | nil => rfl
  | cons x xs =>
    rw [hp] at h
    simp [dedupAux] at h

theorem replaceSeg_of_no_ph {segs : List Seg} (h : phNames segs = [])
    (n v : List Char) : segs.map (replaceSeg n v) = segs := by
  have hall := List.filterMap_eq_nil_iff.mp h
  induction segs with
  | nil => rfl
  | cons s ss ih =>
    have hs := hall s (by simp)
    have hss : ∀ x ∈ ss, (match x with | .ph _ nm => some nm | .lit _ => none) = none := by
      intro x hx
      exact hall x (by simp [hx])
    have htail : ss.map (replaceSeg n v) = ss := by
      apply ih
      · exact List.filterMap_eq_nil_iff.mpr hss
      · exact hss
    cases s with
    | lit l => simp [replaceSeg, htail]
    | ph b nm => simp at hs

theorem replaceVarSegs_found {vars : List (List Char)}
    {src : List Char → Option (List Char)} :
    ∀ {segs segs2 : List Seg}, replaceVarSegs vars src false segs = .ok segs2 →
    ∀ n ∈ vars, src n ≠ none := by
  induction vars with
  | nil => intro _ _ _ n hn; simp at hn
  | cons m ms ih =>
    intro segs segs2 h n hn
    unfold replaceVarSegs at h
    cases hm : src m with
    | some v =>
      rw [hm] at h
      rcases List.mem_cons.mp hn with hn | hn
      · subst hn; simp [hm]
      · exact ih h n hn
    | none =>
      rw [hm] at h
      simp at h

theorem replaceVarSegs_no_ph_id {src : List Char → Option (List Char)} :
    ∀ (vars : List (List Char)) (segs : List Seg),
    (∀ n ∈ vars, src n ≠ none) → phNames segs = [] →
    replaceVarSegs vars src false segs = .ok segs := by
  intro vars
  induction vars with
  | nil => intro segs _ _; rfl
  | cons m ms ih =>
    intro segs hfound hph
    unfold replaceVarSegs
    cases hm : src m with
    | none => exact absurd hm (hfound m (by simp))
    | some v =>
      show replaceVarSegs ms src false (segs.map (replaceSeg m v)) = .ok segs
      rw [replaceSeg_of_no_ph hph m v]
      exact ih segs (fun n hn => hfound n (by simp [hn])) hph

theorem replaceVarSegs_missing {src : List Char → Option (List Char)} :
    ∀ (vars : List (List Char)), (∃ n ∈ vars, src n = none) →
    ∀ segs : List Seg, ∃ m, m ∈ vars ∧ src m = none ∧
      replaceVarSegs vars src false segs = .error (.missingVariable m) := by
  intro vars
  induction vars with
  | nil => intro h; rcases h with ⟨n, hn, _⟩; simp at hn
  | cons k ks ih =>
    intro h segs
    cases hk : src k with
    | none =>
      refine ⟨k, by simp, hk, ?_⟩
      unfold replaceVarSegs
      rw [hk]
      rfl
    | some v =>
      have hex : ∃ n ∈ ks, src n = none := by
        rcases h with ⟨n, hn, hnone⟩
        rcases List.mem_cons.mp hn with rfl | hn
        · rw [hk] at hnone; exact absurd hnone (by simp)
        · exact ⟨n, hn, hnone⟩
      rcases ih hex (segs.map (replaceSeg k v)) with ⟨m, hm, hnone, heq⟩
      refine ⟨m, by simp [hm], hnone, ?_⟩
      unfold replaceVarSegs
      rw [hk]
      exact heq

theorem countPh_map_replaceSeg {n m v : List Char} (hne : n ≠ m) (segs : List Seg) :
    countPh n (segs.map (replaceSeg m v)) = countPh n segs := by
  induction segs with
  | nil => rfl
  | cons s ss ih =>
    unfold countPh at ih ⊢
    simp only [List.map_cons, List.countP_cons]
    rw [ih]
    congr 1
    cases s with
    | lit l => rfl
    | ph b nm =>
      by_cases hb : nm = m
      · subst hb
        have hd : decide (nm = n) = false := decide_eq_false (Ne.symm hne)
        simp [replaceSeg, hd]
      · simp [replaceSeg, hb]

theorem replaceVarSegs_skip_ok {src : List Char → Option (List Char)} :
    ∀ (vars : List (List Char)) (segs : List Seg),
    ∃ segs2, replaceVarSegs vars src true segs = .ok segs2 ∧
      ∀ n, src n = none → countPh n segs2 = countPh n segs := by
  intro vars
  induction vars with
  | nil => intro segs; exact ⟨segs, rfl, fun _ _ => rfl⟩
  | cons k ks ih =>
    intro segs
    cases hk : src k with
    | none =>
      rcases ih segs with ⟨segs2, heq, hcount⟩
      refine ⟨segs2, ?_, hcount⟩
      unfold replaceVarSegs
      rw [hk]
      simpa using heq
    | some v =>
      rcases ih (segs.map (replaceSeg k v)) with ⟨segs2, heq, hcount⟩
      refine ⟨segs2, ?_, ?_⟩
      · unfold replaceVarSegs
        rw [hk]
        exact heq
      · intro n hn
        have hne : n ≠ k := by
          intro hcontra
          subst hcontra
          rw [hk] at hn
          exact absurd hn (by simp)
        rw [hcount n hn, countPh_map_replaceSeg hne]

theorem replaceVarSegs_all_missing_skip {src : List Char → Option (List Char)} :
    ∀ (vars : List (List Char)) (segs : List Seg),
    (∀ n ∈ vars, src n = none) →
    replaceVarSegs vars src true segs = .ok segs := by
  intro vars
  induction vars with
  | nil => intro segs _; rfl
  | cons k ks ih =>
    intro segs hall
    unfold replaceVarSegs
    rw [hall k (by simp)]
    simpa using ih segs (fun n hn => hall n (by simp [hn]))

/-! ## Namespace fix-up lemmas -/

theorem fixTargetNamespace_forces {f : String → Bool} {objs : List Unstructured}
    {tn : String} : ∀ o ∈ fixTargetNamespace f objs tn, f o.kind = true → o.ns = tn := by
  intro o ho hk
  unfold fixTargetNamespace at ho
  rcases List.mem_map.mp ho with ⟨a, ha, rfl⟩
  by_cases hfa : f a.kind = true
  · rw [if_pos hfa]
  · rw [if_neg hfa] at hk
    exact absurd hk hfa

theorem fixTargetNamespace_length {f : String → Bool} {objs : List Unstructured}
    {tn : String} : (fixTargetNamespace f objs tn).length = objs.length := by
  unfold fixTargetNamespace
  exact List.length_map _ _

theorem fixTargetNamespace_get_cluster_scoped {f : String → Bool}
    {objs : List Unstructured} {tn : String} (i : Nat)
    (h1 : i < (fixTargetNamespace f objs tn).length) (h2 : i < objs.length)
    (hns : f (objs.get ⟨i, h2⟩).kind = false) :
    (fixTargetNamespace f objs tn).get ⟨i, h1⟩ = objs.get ⟨i, h2⟩ := by
  unfold fixTargetNamespace at h1 ⊢
  rw [List.get_map]
  have hns2 : f objs[i].kind = false := by
    simpa [List.get_eq_getElem] using hns
  rw [if_neg (by simp [hns2])]

/-! ## Claim theorems -/

/-- C3: for every raw artifact and variable source, if any discovered variable
is absent from the source and skipMissing is false, substitution fails with a
MissingVariable error and returns no output (the `Except` error carries no
output, so the result is all-or-nothing by construction); if skipMissing is
true, substitution succeeds and the absent variables' placeholder tokens are
left untouched in the output (their occurrence counts are preserved in the
token list the output renders, and when every discovered variable is absent
the output is exactly the input). -/
theorem c3_missing_variable_strictness
    (raw : List Char) (src : List Char → Option (List Char)) :
    ((∃ n ∈ inspectVariables raw, src n = none) →
      ∃ m, m ∈ inspectVariables raw ∧ src m = none ∧
        Process (newDefaultYamlProcessor false) raw src = .error (.missingVariable m)) ∧
    ((∀ n ∈ inspectVariables raw, src n = none) →
      Process (newDefaultYamlProcessor true) raw src = .ok raw) ∧
    (∃ segs2, replaceVarSegs (inspectVariables raw) src true (scan raw) = .ok segs2 ∧
      Process (newDefaultYamlProcessor true) raw src = .ok (renderSegs segs2) ∧
      ∀ n, src n = none → countPh n segs2 = countPh n (scan raw)) := by
  refine ⟨?_, ?_, ?_⟩
  · intro hex
    rcases replaceVarSegs_missing (inspectVariables raw) hex (scan raw) with ⟨m, hm, hnone, heq⟩
    refine ⟨m, hm, hnone, ?_⟩
    unfold Process newDefaultYamlProcessor replaceVariables
    rw [heq]
    rfl
  · intro hall
    unfold Process newDefaultYamlProcessor replaceVariables
    rw [replaceVarSegs_all_missing_skip (inspectVariables raw) (scan raw) hall]
    show Except.ok (renderSegs (scan raw)) = Except.ok raw
    rw [render_scan]
  · rcases replaceVarSegs_skip_ok (inspectVariables raw) (scan raw) with ⟨segs2, heq, hcount⟩
    refine ⟨segs2, heq, ?_, hcount⟩
    unfold Process newDefaultYamlProcessor replaceVariables
    rw [heq]
    rfl

/-- Witness for C3 at concrete inputs: with every variable absent and
skipMissing false, substituting the sample artifact fails with a
MissingVariable error; with skipMissing true it returns the input unchanged. -/
theorem c3_missing_variable_strictness_witness :
    (∃ m, m ∈ inspectVariables sampleRaw ∧ noVars m = none ∧
      Process (newDefaultYamlProcessor false) sampleRaw noVars = .error (.missingVariable m)) ∧
    Process (newDefaultYamlProcessor true) sampleRaw noVars = .ok sampleRaw :=
  ⟨(c3_missing_variable_strictness sampleRaw noVars).1
      ⟨"CLUSTER_NAME".toList, by decide, rfl⟩,
    (c3_missing_variable_strictness sampleRaw noVars).2.1 (fun _ _ => rfl)⟩

/-- C8: substitution is idempotent. If a first Substitute call with
skipMissing false succeeds and its output contains no remaining placeholders
(none are discovered in it), then running Substitute again on that output with
the same variables and source returns the output unchanged. -/
theorem c8_substitution_idempotent (raw : List Char) (vars : List (List Char))
    (src : List Char → Option (List Char)) (out : List Char)
    (h1 : replaceVariables raw vars src false = .ok out)
    (h2 : inspectVariables out = []) :
    replaceVariables out vars src false = .ok out := by
  have hfound : ∀ n ∈ vars, src n ≠ none := by
    unfold replaceVariables at h1
    cases hseg : replaceVarSegs vars src false (scan raw) with
    | error e => rw [hseg] at h1; exact absurd h1 (by simp [Except.map])
    | ok segs2 => exact replaceVarSegs_found hseg
  unfold replaceVariables
  rw [replaceVarSegs_no_ph_id vars (scan out) hfound (inspectVariables_nil_phNames h2)]
  show Except.ok (renderSegs (scan out)) = Except.ok out
  rw [render_scan]

/-- Witness for C8 at concrete inputs: the sample artifact fully resolves
under the sample source, and substituting the output again is a no-op. -/
theorem c8_substitution_idempotent_witness :
    replaceVariables sampleRaw (inspectVariables sampleRaw) sampleVars false = .ok sampleOut ∧
    inspectVariables sampleOut = [] ∧
    replaceVariables sampleOut (inspectVariables sampleRaw) sampleVars false = .ok sampleOut :=
  ⟨rfl, by decide,
    c8_substitution_idempotent sampleRaw (inspectVariables sampleRaw) sampleVars sampleOut
      rfl (by decide)⟩

/-- C1: every successful full render (listVariablesOnly false) returns a
template whose namespace-scoped objects all carry the target namespace, and
whose cluster-scoped objects are exactly the objects produced by the
converter, completely unchanged by the namespace fix-up step (the object list
is the fix-up of the converter output, with identical length and pointwise
equality on cluster-scoped entries). -/
theorem c1_namespace_normalization (input : TemplateClientInput) (w : World)
    (version flavor targetNamespace : String) (t : template)
    (h : templateGet (newTemplateClient { input with listVariablesOnly := false }) w
        version flavor targetNamespace = .ok t) :
    (∀ o ∈ t.objs, w.isNamespaced o.kind = true → o.ns = targetNamespace) ∧
    ∃ raw processedYaml objs0,
      fetchRawArtifact w.fs input.provider input.repository version
          (ArtifactName (newDefaultYamlProcessor false) version flavor) = .ok raw ∧
      Process (newDefaultYamlProcessor false) raw input.configVariablesClient =
        .ok processedYaml ∧
      w.toUnstructured processedYaml = .ok objs0 ∧
      t.objs = fixTargetNamespace w.isNamespaced objs0 targetNamespace ∧
      t.objs.length = objs0.length ∧
      ∀ (i : Nat) (h1 : i < t.objs.length) (h2 : i < objs0.length),
        w.isNamespaced (objs0.get ⟨i, h2⟩).kind = false →
        t.objs.get ⟨i, h1⟩ = objs0.get ⟨i, h2⟩ := by
  simp only [templateGet, newTemplateClient, newDefaultYamlProcessor] at h
  by_cases htn : targetNamespace = ""
  · rw [if_pos htn] at h
    exact absurd h (by simp)
  · rw [if_neg htn] at h
    cases hf : fetchRawArtifact w.fs input.provider input.repository version
        (ArtifactName { skipVariables := false } version flavor) with
    | error e =>
      rw [hf] at h
      exact absurd h (by simp)
    | ok raw =>
      rw [hf] at h
      simp only [GetVariables, Bool.false_eq_true, if_false] at h
      cases hp : Process { skipVariables := false } raw input.configVariablesClient with
      | error e =>
        rw [hp] at h
        simp at h
      | ok processedYaml =>
        rw [hp] at h
        dsimp only [] at h
        cases hu : w.toUnstructured processedYaml with
        | error e =>
          rw [hu] at h
          simp at h
        | ok objs0 =>
          rw [hu] at h
          dsimp only [] at h
          have ht := (Except.ok.injEq _ _).mp h
          have hobjs : t.objs = fixTargetNamespace w.isNamespaced objs0 targetNamespace := by
            rw [← ht]
          constructor
          · intro o ho hk
            rw [hobjs] at ho
            exact fixTargetNamespace_forces o ho hk
          · refine ⟨raw, processedYaml, objs0, hf, hp, hu, hobjs, ?_, ?_⟩
            · rw [hobjs]
              exact fixTargetNamespace_length
            · intro i h1 h2 hns
              have h1b : i < (fixTargetNamespace w.isNamespaced objs0 targetNamespace).length := by
                rw [← hobjs]
                exact h1
              have hstep := fixTargetNamespace_get_cluster_scoped i h1b h2 hns
              have hcast := List.get_of_eq hobjs ⟨i, h1⟩
              exact hcast.trans hstep

/-- Witness for C1: a concrete full render over the sample world forces the
Cluster object into the target namespace and leaves the cluster-scoped
CustomResourceDefinition untouched. -/
theorem c1_namespace_normalization_witness :
    templateGet (newTemplateClient { sampleInput with listVariablesOnly := false }) sampleWorld
        "v1.0.0" "" "ns1" = .ok sampleRenderedTemplate ∧
    (∀ o ∈ sampleRenderedTemplate.objs,
      sampleWorld.isNamespaced o.kind = true → o.ns = "ns1") :=
  ⟨rfl, (c1_namespace_normalization sampleInput sampleWorld "v1.0.0" "" "ns1" _ rfl).1⟩

/-- C5: for every version and flavor (and any collaborators), the template
client's Get with an empty targetNamespace fails with the invalid-arguments
error; the equation holds for every world and client, so no fetch,
substitution or conversion influences the result. -/
theorem c5_empty_target_namespace_rejected (c : templateClient) (w : World)
    (version flavor : String) :
    templateGet c w version flavor "" =
      .error "invalid arguments: please provide a targetNamespace" := by
  unfold templateGet
  rw [if_pos rfl]

/-- C7: when Get runs in list-variables-only mode with a non-empty target
namespace and the fetch succeeds, it returns successfully an artifact whose
variables are exactly the discovered variables of the raw artifact, whose
objects list is empty and whose target namespace is unset; substitution,
conversion and namespace normalization do not contribute to the result. -/
theorem c7_list_variables_only_mode (input : TemplateClientInput) (w : World)
    (version flavor targetNamespace : String) (raw : List Char)
    (htn : targetNamespace ≠ "")
    (hfetch : fetchRawArtifact w.fs input.provider input.repository version
        (ArtifactName (newDefaultYamlProcessor true) version flavor) = .ok raw) :
    templateGet (newTemplateClient { input with listVariablesOnly := true }) w
        version flavor targetNamespace =
      .ok { vars := inspectVariables raw, targetNamespace := "", objs := [], rawYaml := [] } := by
  have hf2 : fetchRawArtifact w.fs input.provider input.repository version
      (ArtifactName { skipVariables := true } version flavor) = .ok raw := hfetch
  simp only [templateGet, newTemplateClient, newDefaultYamlProcessor]
  rw [if_neg htn, hf2]
  simp [GetVariables]

/-- Witness for C7: with no override and the sample backend, list-variables
mode returns the two discovered variables and an empty object list. -/
theorem c7_list_variables_only_mode_witness :
    fetchRawArtifact sampleWorld.fs sampleInput.provider sampleInput.repository "v1.0.0"
        (ArtifactName (newDefaultYamlProcessor true) "v1.0.0" "") = .ok sampleRaw ∧
    templateGet (newTemplateClient { sampleInput with listVariablesOnly := true }) sampleWorld
        "v1.0.0" "" "ns1" =
      .ok { vars := ["CLUSTER_NAME".toList, "NAMESPACE".toList], targetNamespace := "",
            objs := [], rawYaml := [] } :=
  ⟨rfl, by
    rw [c7_list_variables_only_mode sampleInput sampleWorld "v1.0.0" "" "ns1" sampleRaw
      (by decide) rfl]
    rfl⟩

/-- C10: the empty-targetNamespace rejection applies in list-variables-only
mode as well; any successful Get in that mode returns an artifact whose
TargetNamespace is the empty string regardless of the argument, and the
result does not depend on which non-empty target namespace was supplied. -/
theorem c10_lvo_empty_namespace_rejected (input : TemplateClientInput) (w : World)
    (version flavor : String) :
    (templateGet (newTemplateClient { input with listVariablesOnly := true }) w version flavor ""
      = .error "invalid arguments: please provide a targetNamespace") ∧
    (∀ targetNamespace t,
      templateGet (newTemplateClient { input with listVariablesOnly := true }) w version flavor
          targetNamespace = .ok t →
      t.TargetNamespace = "") ∧
    (∀ tn1 tn2, tn1 ≠ "" → tn2 ≠ "" →
      templateGet (newTemplateClient { input with listVariablesOnly := true }) w version flavor
          tn1 =
        templateGet (newTemplateClient { input with listVariablesOnly := true }) w version flavor
          tn2) := by
  refine ⟨?_, ?_, ?_⟩
  · unfold templateGet
    rw [if_pos rfl]
  · intro tn t h
    simp only [templateGet, newTemplateClient, newDefaultYamlProcessor] at h
    by_cases htn : tn = ""
    · rw [if_pos htn] at h
      exact absurd h (by simp)
    · rw [if_neg htn] at h
      cases hf : fetchRawArtifact w.fs input.provider input.repository version
          (ArtifactName { skipVariables := true } version flavor) with
      | error e =>
        rw [hf] at h
        exact absurd h (by simp)
      | ok raw =>
        rw [hf] at h
        simp only [GetVariables, if_pos rfl] at h
        have ht := (Except.ok.injEq _ _).mp h
        rw [← ht]
        rfl
  · intro tn1 tn2 h1 h2
    simp only [templateGet, newTemplateClient, newDefaultYamlProcessor]
    rw [if_neg h1, if_neg h2]
    cases hf : fetchRawArtifact w.fs input.provider input.repository version
        (ArtifactName { skipVariables := true } version flavor) with
    | error e => rfl
    | ok raw => rfl

/-- Witness for C10: the rejection fires with listVariablesOnly set, and a
successful list-variables call returns a template whose TargetNamespace is
empty even though a non-empty one was supplied. -/
theorem c10_lvo_empty_namespace_rejected_witness :
    templateGet (newTemplateClient { sampleInput with listVariablesOnly := true }) sampleWorld
        "v1.0.0" "" "" = .error "invalid arguments: please provide a targetNamespace" ∧
    template.TargetNamespace
      { vars := ["CLUSTER_NAME".toList, "NAMESPACE".toList], targetNamespace := "",
        objs := [], rawYaml := [] } = "" :=
  ⟨(c10_lvo_empty_namespace_rejected sampleInput sampleWorld "v1.0.0" "").1,
    (c10_lvo_empty_namespace_rejected sampleInput sampleWorld "v1.0.0" "").2.1 "ns1"
      { vars := ["CLUSTER_NAME".toList, "NAMESPACE".toList], targetNamespace := "",
        objs := [], rawYaml := [] } rfl⟩

/-- Helper for C2: when the local override resolver returns content, the
fetch returns exactly that content, for any backend. -/
theorem fetch_with_override {fs : FileSystem} {provider : Provider} {repo : Repository}
    {version name : String} {content : List Char}
    (h : getLocalOverride fs provider version name = .ok (some content)) :
    fetchRawArtifact fs provider repo version name = .ok content := by
  unfold fetchRawArtifact
  rw [h]

/-- C2: when a local override exists at the canonical path, the raw artifact
used for rendering is exactly the override file's bytes and the backend's
GetFile function is never consulted (the result of Get is identical for every
GetFile implementation), both for the template client and for the components
client; the backend is consulted exactly when the override resolver reports
absent. -/
theorem c2_override_precedence (c : templateClient) (f : componentsClient) (w : World)
    (version flavor targetNamespace watchingNamespace : String) :
    (∀ content,
      getLocalOverride w.fs c.provider version (ArtifactName c.processor version flavor) =
        .ok (some content) →
      fetchRawArtifact w.fs c.provider c.repository version
          (ArtifactName c.processor version flavor) = .ok content ∧
      ∀ gf1 gf2,
        templateGet { c with repository := { c.repository with getFile := gf1 } } w version
            flavor targetNamespace =
          templateGet { c with repository := { c.repository with getFile := gf2 } } w version
            flavor targetNamespace) ∧
    (getLocalOverride w.fs c.provider version (ArtifactName c.processor version flavor) =
        .ok none →
      fetchRawArtifact w.fs c.provider c.repository version
          (ArtifactName c.processor version flavor) =
        match c.repository.getFile version (ArtifactName c.processor version flavor) with
        | .ok raw => .ok raw
        | .error e => .error ("failed to read " ++ ArtifactName c.processor version flavor ++
            " from repository of provider " ++ c.provider.manifestLabel ++ ": " ++ e)) ∧
    (∀ content, version ≠ "" →
      getLocalOverride w.fs f.provider version f.repository.componentsPath =
        .ok (some content) →
      componentsGet f w.fs version targetNamespace watchingNamespace =
        f.newComponents f.provider version content targetNamespace watchingNamespace ∧
      ∀ gf1 gf2,
        componentsGet { f with repository := { f.repository with getFile := gf1 } } w.fs
            version targetNamespace watchingNamespace =
          componentsGet { f with repository := { f.repository with getFile := gf2 } } w.fs
            version targetNamespace watchingNamespace) := by
  refine ⟨?_, ?_, ?_⟩
  · intro content h
    refine ⟨fetch_with_override h, ?_⟩
    intro gf1 gf2
    have h1 : fetchRawArtifact w.fs c.provider
        ⟨c.repository.defaultVersion, c.repository.rootPath, c.repository.componentsPath,
          gf1, c.repository.getVersions⟩ version
        (ArtifactName c.processor version flavor) = .ok content := fetch_with_override h
    have h2 : fetchRawArtifact w.fs c.provider
        ⟨c.repository.defaultVersion, c.repository.rootPath, c.repository.componentsPath,
          gf2, c.repository.getVersions⟩ version
        (ArtifactName c.processor version flavor) = .ok content := fetch_with_override h
    simp only [templateGet]
    by_cases htn : targetNamespace = ""
    · rw [htn]
      rfl
    · rw [if_neg htn, if_neg htn]
      rw [h1, h2]
  · intro h
    unfold fetchRawArtifact
    rw [h]
  · intro content hv h
    constructor
    · simp only [componentsGet]
      rw [if_neg hv, h]
    · intro gf1 gf2
      simp only [componentsGet]
      rw [if_neg hv]
      rw [h]

/-- Witness for C2: with the sample override filesystem, the template fetch
returns the override bytes and Get is insensitive to two different backend
GetFile implementations. -/
theorem c2_override_precedence_witness :
    getLocalOverride fsOverride sampleProvider "v1.0.0" "cluster-template.yaml" =
      .ok (some sampleRaw) ∧
    fetchRawArtifact fsOverride sampleProvider sampleRepo "v1.0.0" "cluster-template.yaml" =
      .ok sampleRaw ∧
    templateGet { newTemplateClient sampleInput with
        repository := { sampleRepo with getFile := fun _ _ => .ok "AAA".toList } }
      sampleWorldOverride "v1.0.0" "" "ns1" =
      templateGet { newTemplateClient sampleInput with
        repository := { sampleRepo with getFile := fun _ _ => .error "boom" } }
      sampleWorldOverride "v1.0.0" "" "ns1" :=
  ⟨rfl,
    ((c2_override_precedence (newTemplateClient sampleInput) sampleComponentsClient
        sampleWorldOverride "v1.0.0" "" "ns1" "").1 sampleRaw rfl).1,
    ((c2_override_precedence (newTemplateClient sampleInput) sampleComponentsClient
        sampleWorldOverride "v1.0.0" "" "ns1" "").1 sampleRaw rfl).2
      (fun _ _ => .ok "AAA".toList) (fun _ _ => .error "boom")⟩

/-- C6: the local override resolver reports absent (a nil result with no
error) exactly when the override file does not exist at the canonical path;
a stat failure other than not-exist is propagated as an error, a read failure
is propagated as a wrapped error, and an existing readable file is returned. -/
theorem c6_override_absent_iff_not_exist (fs : FileSystem) (provider : Provider)
    (version path : String) :
    (getLocalOverride fs provider version path = .ok none ↔
      fs.stat (overridePath fs.configHome provider.manifestLabel version path) =
        .error .notExist) ∧
    (∀ msg, fs.stat (overridePath fs.configHome provider.manifestLabel version path) =
        .error (.other msg) →
      getLocalOverride fs provider version path = .error msg) ∧
    (∀ msg, fs.stat (overridePath fs.configHome provider.manifestLabel version path) = .ok () →
      fs.readFile (overridePath fs.configHome provider.manifestLabel version path) =
        .error msg →
      getLocalOverride fs provider version path =
        .error ("failed to read local override for " ++ provider.manifestLabel ++ "/" ++
          version ++ "/" ++ path ++ ": " ++ msg)) ∧
    (∀ content,
      fs.stat (overridePath fs.configHome provider.manifestLabel version path) = .ok () →
      fs.readFile (overridePath fs.configHome provider.manifestLabel version path) =
        .ok content →
      getLocalOverride fs provider version path = .ok (some content)) := by
  refine ⟨⟨?_, ?_⟩, ?_, ?_, ?_⟩
  · intro h
    simp only [getLocalOverride] at h
    cases hstat : fs.stat (overridePath fs.configHome provider.manifestLabel version path) with
    | ok u =>
      rw [hstat] at h
      cases hread : fs.readFile
          (overridePath fs.configHome provider.manifestLabel version path) with
      | ok content => rw [hread] at h; simp at h
      | error e => rw [hread] at h; simp at h
    | error se =>
      cases se with
      | notExist => rfl
      | other msg => rw [hstat] at h; simp at h
  · intro h
    simp only [getLocalOverride]
    rw [h]
  · intro msg h
    simp only [getLocalOverride]
    rw [h]
  · intro msg hstat hread
    simp only [getLocalOverride]
    rw [hstat, hread]
  · intro content hstat hread
    simp only [getLocalOverride]
    rw [hstat, hread]

/-- Witness for C6: the empty filesystem reports absent, the sample override
filesystem returns the file, and a permission failure is propagated as an
error rather than treated as absent. -/
theorem c6_override_absent_iff_not_exist_witness :
    getLocalOverride fsEmpty sampleProvider "v1.0.0" "cluster-template.yaml" = .ok none ∧
    getLocalOverride fsOverride sampleProvider "v1.0.0" "cluster-template.yaml" =
      .ok (some sampleRaw) ∧
    getLocalOverride fsPerm sampleProvider "v1.0.0" "cluster-template.yaml" =
      .error "permission denied" :=
  ⟨(c6_override_absent_iff_not_exist fsEmpty sampleProvider "v1.0.0"
      "cluster-template.yaml").1.mpr rfl,
    (c6_override_absent_iff_not_exist fsOverride sampleProvider "v1.0.0"
      "cluster-template.yaml").2.2.2 sampleRaw rfl rfl,
    (c6_override_absent_iff_not_exist fsPerm sampleProvider "v1.0.0"
      "cluster-template.yaml").2.1 "permission denied" rfl⟩

/-- C4: backend selection inspects the parsed provider URL once: HTTPS on
github.com selects the GitHub backend constructor, the file or empty scheme
selects the local filesystem backend constructor, and every other
scheme/host combination fails with an error that names the offending scheme
and selects no backend. -/
theorem c4_backend_selection (env : FactoryEnv) (provider : Provider) (u : ParsedURL)
    (hparse : env.parseURL provider.url = some u) :
    ((u.scheme = "https" ∧ u.host = "github.com") →
      repositoryFactory env provider =
        match env.newGitHubRepository provider with
        | .ok repo => .ok repo
        | .error e => .error ("error creating the GitHub repository client: " ++ e)) ∧
    ((u.scheme = "file" ∨ u.scheme = "") →
      repositoryFactory env provider =
        match env.newLocalRepository provider with
        | .ok repo => .ok repo
        | .error e =>
            .error ("error creating the local filesystem repository client: " ++ e)) ∧
    (¬(u.scheme = "https" ∧ u.host = "github.com") →
      ¬(u.scheme = "file" ∨ u.scheme = "") →
      repositoryFactory env provider =
        .error ("invalid provider url. there are no provider implementation for " ++
          u.scheme ++ " schema")) := by
  refine ⟨?_, ?_, ?_⟩
  · intro hgh
    unfold repositoryFactory httpsScheme githubDomain
    rw [hparse]
    dsimp only
    rw [if_pos hgh]
  · intro hlocal
    have hne : ¬(u.scheme = httpsScheme ∧ u.host = githubDomain) := by
      unfold httpsScheme githubDomain
      rcases hlocal with h | h <;> rw [h] <;> simp
    unfold repositoryFactory
    rw [hparse]
    dsimp only
    rw [if_neg hne, if_pos hlocal]
  · intro hngh hnlocal
    unfold repositoryFactory
    rw [hparse]
    dsimp only
    rw [if_neg (by unfold httpsScheme githubDomain; exact hngh), if_neg hnlocal]

/-- Witness for C4: under the sample parser, the GitHub release URL yields the
GitHub backend, the file URL yields the local backend, and the http scheme is
rejected with an error naming it. -/
theorem c4_backend_selection_witness :
    repositoryFactory sampleFactoryEnv sampleProvider = .ok sampleRepo ∧
    repositoryFactory sampleFactoryEnv localProvider =
      .ok { sampleRepo with componentsPath := "components.yaml" } ∧
    repositoryFactory sampleFactoryEnv badSchemeProvider =
      .error "invalid provider url. there are no provider implementation for http schema" := by
  refine ⟨?_, ?_, ?_⟩
  · rw [(c4_backend_selection sampleFactoryEnv sampleProvider
      { scheme := "https", host := "github.com" } rfl).1 ⟨rfl, rfl⟩]
    rfl
  · rw [(c4_backend_selection sampleFactoryEnv localProvider
      { scheme := "file", host := "" } rfl).2.1 (Or.inl rfl)]
    rfl
  · rw [(c4_backend_selection sampleFactoryEnv badSchemeProvider
      { scheme := "http", host := "github.com" } rfl).2.2 (by simp) (by simp)]
    rfl

/-- C9: when a repository backend is injected through the InjectRepository
option, client construction succeeds and carries that backend, for every
factory environment (so the provider URL is never parsed or validated: even
an environment whose URL parser rejects every URL yields the same client). -/
theorem c9_inject_repository_skips_url_handling (env : FactoryEnv) (provider : Provider)
    (cvc : List Char → Option (List Char)) (r : Repository) :
    newRepositoryClient env provider cvc [InjectRepository r] =
      .ok { provider := provider, configVariablesClient := cvc, repository := some r } ∧
    newRepositoryClient failingFactoryEnv provider cvc [InjectRepository r] =
      .ok { provider := provider, configVariablesClient := cvc, repository := some r } := by
  constructor <;> rfl

end Clusterctl
